import Mathlib

/-!
Verification of the problem-formulation and solution-extraction layer of the
SimpleDenseGurobi repository (`simple_gurobi.py`).

The external Gurobi solver is a black box: it is modelled as an oracle of type
`BuiltModel → GurobiResult` that maps the model handed to it to a raw result
(a status code and post-solve attribute values).  Floating-point numbers are
modelled exactly as rationals.  A Python function that can raise an exception
is modelled with an `Option` result, `none` standing for the raised exception.
-/

namespace SimpleGurobi

/-- One-dimensional numpy arrays are lists of rationals. -/
abbrev Vec := List ℚ

/-- Two-dimensional numpy arrays are lists of rows. -/
abbrev Mat := List (List ℚ)

/-- `A.shape[1]`: the column count of a matrix. -/
def Mat.cols (A : Mat) : ℕ := (A.headD []).length

/-- `numpy.size(A)`: the total number of entries of a matrix. -/
def Mat.size (A : Mat) : ℕ := (A.map List.length).sum

/-- Dot product of two vectors. -/
def dot (a b : Vec) : ℚ := (List.zipWith (fun x y => x * y) a b).sum

/-- `A @ x`: matrix–vector product. -/
def matVec (A : Mat) (x : Vec) : Vec := A.map (fun row => dot row x)

/-- `A @ x - b`: the per-constraint residual vector. -/
def residual (A : Mat) (x b : Vec) : Vec :=
  List.zipWith (fun r s => r - s) (matVec A x) b

/-- `numpy.where(mask)` on a boolean mask: the indices at which the mask holds,
in increasing order. -/
def np_where (mask : List Bool) : List ℕ :=
  (List.range mask.length).filter (fun i => mask.getD i false)

/-- The active-set tolerance `10 ** -12` of `solve_miqp`. -/
def tol_active : ℚ := 1 / 10 ^ 12

/-- The objective tolerance `10 ** -10` of `SolverOutput.__eq__`. -/
def tol_obj : ℚ := 1 / 10 ^ 10

/-- numpy default relative tolerance `rtol = 1e-5` of `numpy.allclose`. -/
def np_rtol : ℚ := 1 / 10 ^ 5

/-- numpy default absolute tolerance `atol = 1e-8` of `numpy.allclose`. -/
def np_atol : ℚ := 1 / 10 ^ 8

/-- `numpy.isclose` on two scalars with the default tolerances. -/
def isclose (a b : ℚ) : Bool := decide (|a - b| ≤ np_atol + np_rtol * |b|)

/-- `numpy.allclose` on two 1-d arrays: elementwise `isclose` after numpy
broadcasting (a length-one array is stretched to the other length); `none`
models the `ValueError` raised on incompatible shapes. -/
def allcloseL (x y : Vec) : Option Bool :=
  if x.length = y.length then
    some ((List.zip x y).all (fun p => isclose p.1 p.2))
  else if x.length = 1 then
    some (y.all (fun b => isclose (x.headD 0) b))
  else if y.length = 1 then
    some (x.all (fun a => isclose a (y.headD 0)))
  else none

/-- `numpy.allclose` applied to possibly-`None` operands, as
`SolverOutput.__eq__` does: passing `None` to `numpy.allclose` raises a
`TypeError` (the object array admits no arithmetic), modelled as `none`. -/
def optAllclose (x y : Option Vec) : Option Bool :=
  match x, y with
  | some a, some b => allcloseL a b
  | _, _ => none

/-- An index array (as produced by `numpy.where`) viewed as a numeric array. -/
def natVec (l : List ℕ) : Vec := l.map (fun n => (n : ℚ))

/-- `numpy.allclose` on possibly-`None` index arrays. -/
def optAllcloseNat (x y : Option (List ℕ)) : Option Bool :=
  match x, y with
  | some a, some b => allcloseL (natVec a) (natVec b)
  | _, _ => none

/-- Python short-circuit `and`: the second operand is evaluated only when the
first is `True`; an error in the first operand propagates. -/
def pyAnd (x : Option Bool) (k : Unit → Option Bool) : Option Bool :=
  match x with
  | some true => k ()
  | some false => some false
  | none => none

/-- The solution record `SolverOutput` of `simple_gurobi.py`. -/
structure SolverOutput where
  obj : ℚ
  sol : Vec
  slack : Option Vec
  active_set : Option (List ℕ)
  dual : Option Vec
  deriving DecidableEq, Repr

/-- `SolverOutput.__eq__`: the chain of `numpy.allclose` tests over `slack`,
`active_set`, `dual`, `sol` combined by Python `and`, ending with the squared
objective-difference test; `none` models a raised `TypeError`/`ValueError`. -/
def SolverOutput.eq (s o : SolverOutput) : Option Bool :=
  pyAnd (optAllclose s.slack o.slack) (fun _ =>
  pyAnd (optAllcloseNat s.active_set o.active_set) (fun _ =>
  pyAnd (optAllclose s.dual o.dual) (fun _ =>
  pyAnd (allcloseL s.sol o.sol) (fun _ =>
  some (decide ((s.obj - o.obj) ^ 2 < tol_obj))))))

/-- Gurobi status code `GRB.OPTIMAL`. -/
def GRB.OPTIMAL : ℕ := 2

/-- Gurobi status code `GRB.INFEASIBLE`. -/
def GRB.INFEASIBLE : ℕ := 3

/-- Gurobi status code `GRB.UNBOUNDED`. -/
def GRB.UNBOUNDED : ℕ := 5

/-- Gurobi status code `GRB.SUBOPTIMAL`. -/
def GRB.SUBOPTIMAL : ℕ := 13

/-- Variable type set on the model: `GRB.CONTINUOUS` or `GRB.BINARY`. -/
inductive VarType where
  | continuous : VarType
  | binary : VarType
  deriving DecidableEq, Repr

/-- Constraint sense set on the model: `GRB.LESS_EQUAL` or `GRB.EQUAL`. -/
inductive Sense where
  | lessEq : Sense
  | equal : Sense
  deriving DecidableEq, Repr

/-- `get_program_parameters(Q, c, A, b)`.  The source reads `b.shape[0]`
whenever `A` is present, so when `A` is present and `b` is `None` the call
raises an `AttributeError`, modelled as `none`.  Otherwise it returns
`(num_v, num_c)` obtained by sequential overwriting: `num_v` from `Q`'s row
count, then `A`'s column count, then `c`'s length; `num_c` from `b`'s length
when `A` is present, else `0`. -/
def get_program_parameters (Q : Option Mat) (c : Option Vec) (A : Option Mat)
    (b : Option Vec) : Option (ℕ × ℕ) :=
  let num_v0 : ℕ := 0
  let num_v1 : ℕ := match Q with
    | some Qm => Qm.length
    | none => num_v0
  match A with
  | some Am =>
    match b with
    | none => none
    | some bv =>
      let num_v2 := Mat.cols Am
      let num_v3 : ℕ := match c with
        | some cv => cv.length
        | none => num_v2
      some (num_v3, bv.length)
  | none =>
    let num_v3 : ℕ := match c with
      | some cv => cv.length
      | none => num_v1
    some (num_v3, 0)

/-- The raw outcome of one `model.optimize()` call: the status code and the
post-solve attributes `ObjVal`, `X`, `Slack` and `Pi` that `solve_miqp`
queries. -/
structure GurobiResult where
  status : ℕ
  objVal : ℚ
  xVals : Vec
  slack : Vec
  pi : Vec

/-- The model `solve_miqp` hands to the external solver: variable count and
types (binary for indices in `bin_vars`, continuous otherwise), one sense per
constraint row (equal for indices in `equality_constraints`, less-or-equal
otherwise), and the problem data. -/
structure BuiltModel where
  num_vars : ℕ
  var_types : List VarType
  senses : List Sense
  A : Option Mat
  b : Option Vec
  Q : Option Mat
  c : Option Vec

/-- Model construction of `solve_miqp` (variable typing and constraint sense
assignment). -/
def build_model (Q : Option Mat) (c : Option Vec) (A : Option Mat)
    (b : Option Vec) (eqs bins : List ℕ) (num_vars num_constraints : ℕ) :
    BuiltModel :=
  { num_vars := num_vars
    var_types := (List.range num_vars).map
      (fun i => if i ∈ bins then VarType.binary else VarType.continuous)
    senses := (List.range num_constraints).map
      (fun i => if i ∈ eqs then Sense.equal else Sense.lessEq)
    A := A
    b := b
    Q := Q
    c := c }

/-- The solution-extraction tail of `solve_miqp`: `obj` and `sol` always come
from the solver attributes; when `num_constraints != 0` the duals are added
(only when `get_duals` holds and `bin_vars` is empty), the slacks are copied,
and the active set is `numpy.where((A @ sol - b) ** 2 < 10 ** -12)`. -/
def extract_solution (res : GurobiResult) (A : Option Mat) (b : Option Vec)
    (num_constraints : ℕ) (bin_vars : List ℕ) (get_duals : Bool) :
    SolverOutput :=
  let base : SolverOutput :=
    { obj := res.objVal, sol := res.xVals, slack := none, active_set := none,
      dual := none }
  if num_constraints ≠ 0 then
    { base with
      dual := if get_duals = true ∧ bin_vars = [] then some res.pi else none
      slack := some res.slack
      active_set := some (np_where
        ((residual (A.getD []) res.xVals (b.getD [])).map
          (fun r => decide (r ^ 2 < tol_active)))) }
  else base

/-- `solve_miqp`, instrumented: the outer `Option` is `none` when the Python
call raises (dimension inference crashing on `A` present, `b` absent); the
`Bool` records whether `model.optimize()` was invoked; the inner
`Option SolverOutput` is the function's return value. -/
def solve_miqp_run (oracle : BuiltModel → GurobiResult) (Q : Option Mat)
    (c : Option Vec) (A : Option Mat) (b : Option Vec)
    (equality_constraints bin_vars : Option (List ℕ))
    (verbose get_duals : Bool) : Option (Bool × Option SolverOutput) :=
  let eqs := equality_constraints.getD []
  let bins := bin_vars.getD []
  match get_program_parameters Q c A b with
  | none => none
  | some (num_vars, num_constraints) =>
    if A = none ∧ Q = none then some (false, none)
    else
      let res := oracle (build_model Q c A b eqs bins num_vars num_constraints)
      if res.status ≠ GRB.OPTIMAL ∧ res.status ≠ GRB.SUBOPTIMAL then
        some (true, none)
      else
        some (true,
          some (extract_solution res A b num_constraints bins get_duals))

/-- `solve_qp`: delegates to `solve_miqp` leaving `bin_vars` at its default
`None`. -/
def solve_qp_run (oracle : BuiltModel → GurobiResult) (Q : Option Mat)
    (c : Option Vec) (A : Option Mat) (b : Option Vec)
    (equality_constraints : Option (List ℕ)) (verbose get_duals : Bool) :
    Option (Bool × Option SolverOutput) :=
  solve_miqp_run oracle Q c A b equality_constraints none verbose get_duals

/-- `solve_lp`, instrumented: the `Bool` records whether the call delegated to
`solve_miqp`; when `A` or `b` is `None` or has size zero the function returns
`None` without delegating. -/
def solve_lp_run (oracle : BuiltModel → GurobiResult) (c : Option Vec)
    (A : Option Mat) (b : Option Vec)
    (equality_constraints : Option (List ℕ)) (verbose get_duals : Bool) :
    Option (Bool × Option SolverOutput) :=
  match A, b with
  | some Am, some bv =>
    if Mat.size Am = 0 ∨ bv.length = 0 then some (false, none)
    else
      (solve_miqp_run oracle none c (some Am) (some bv) equality_constraints
        none verbose get_duals).map (fun r => (true, r.2))
  | _, _ => some (false, none)

/-- `solve_milp`, instrumented like `solve_lp_run`; `bin_vars` is passed
through to `solve_miqp`. -/
def solve_milp_run (oracle : BuiltModel → GurobiResult) (c : Option Vec)
    (A : Option Mat) (b : Option Vec)
    (equality_constraints bin_vars : Option (List ℕ))
    (verbose get_duals : Bool) : Option (Bool × Option SolverOutput) :=
  match A, b with
  | some Am, some bv =>
    if Mat.size Am = 0 ∨ bv.length = 0 then some (false, none)
    else
      (solve_miqp_run oracle none c (some Am) (some bv) equality_constraints
        bin_vars verbose get_duals).map (fun r => (true, r.2))
  | _, _ => some (false, none)

/-! ### Helper lemmas -/

/-- Membership in `numpy.where` of a decided predicate mask. -/
theorem mem_np_where (l : Vec) (q : ℚ → Bool) (i : ℕ) :
    i ∈ np_where (l.map q) ↔ ∃ r, l[i]? = some r ∧ q r = true := by
  unfold np_where
  rw [List.mem_filter, List.mem_range, List.length_map]
  constructor
  · rintro ⟨hi, hq⟩
    refine ⟨l[i], List.getElem?_eq_getElem hi, ?_⟩
    rw [List.getD_eq_getElem?_getD, List.getElem?_map,
      List.getElem?_eq_getElem hi] at hq
    simpa using hq
  · rintro ⟨r, hr, hq⟩
    obtain ⟨hi, hget⟩ := List.getElem?_eq_some.mp hr
    refine ⟨hi, ?_⟩
    rw [List.getD_eq_getElem?_getD, List.getElem?_map, hr]
    simpa [hget] using hq

/-- Unfolding of `solve_miqp_run` past dimension inference and the
well-posedness check. -/
theorem miqp_run_eq (oracle : BuiltModel → GurobiResult) (Q : Option Mat)
    (c : Option Vec) (A : Option Mat) (b : Option Vec)
    (eqs bins : Option (List ℕ)) (verbose gd : Bool) (nv nc : ℕ)
    (hdims : get_program_parameters Q c A b = some (nv, nc))
    (hwf : ¬(A = none ∧ Q = none)) :
    solve_miqp_run oracle Q c A b eqs bins verbose gd =
      if (oracle (build_model Q c A b (eqs.getD []) (bins.getD [])
            nv nc)).status ≠ GRB.OPTIMAL ∧
         (oracle (build_model Q c A b (eqs.getD []) (bins.getD [])
            nv nc)).status ≠ GRB.SUBOPTIMAL then
        some (true, none)
      else
        some (true, some (extract_solution
          (oracle (build_model Q c A b (eqs.getD []) (bins.getD []) nv nc))
          A b nc (bins.getD []) gd)) := by
  unfold solve_miqp_run
  rw [hdims]
  simp [hwf]

/-- Dimension inference always succeeds when `A` and `b` are present, with
the constraint count equal to `b`'s length. -/
theorem dims_of_A_some (Q : Option Mat) (c : Option Vec) (Am : Mat)
    (bv : Vec) :
    ∃ nv, get_program_parameters Q c (some Am) (some bv) =
      some (nv, bv.length) := by
  cases c <;> exact ⟨_, rfl⟩

/-! ### Claims -/

/-- C2: dimension inference takes `n_vars` from the last non-absent source in
the precedence order `Q` (row count) < `A` (column count) < `c` (length), and
`n_constraints` from `b`'s length when `A` is present, else zero; when none of
`Q`, `A`, `c` is present both counts are zero.  The hypothesis excludes the
inputs on which the source raises (`A` present, `b` absent). -/
theorem c2_dimension_inference (Q : Option Mat) (c : Option Vec)
    (A : Option Mat) (b : Option Vec)
    (hab : A.isSome = true → b.isSome = true) :
    get_program_parameters Q c A b =
      some ((match c with
             | some cv => cv.length
             | none =>
               match A with
               | some Am => Mat.cols Am
               | none =>
                 match Q with
                 | some Qm => Qm.length
                 | none => 0),
            (match A with
             | some _ => (b.getD []).length
             | none => 0)) := by
  cases A with
  | none => cases c <;> cases Q <;> rfl
  | some Am =>
    cases b with
    | none => simp at hab
    | some bv => cases c <;> rfl

/-- C2 witness: with `Q` a 2×2 matrix, `A` a 1×3 matrix and `c` of length 1,
`c` wins the variable count and `b` of length 2 gives the constraint count. -/
theorem c2_dimension_inference_witness :
    get_program_parameters (some [[1, 2], [3, 4]]) (some [7])
      (some [[1, 2, 3]]) (some [9, 9]) = some (1, 2) :=
  c2_dimension_inference (some [[1, 2], [3, 4]]) (some [7])
    (some [[1, 2, 3]]) (some [9, 9]) (fun _ => rfl)

/-- Fields of `extract_solution` on a constrained system. -/
theorem extract_constrained (res : GurobiResult) (Am : Mat) (bv : Vec)
    (nc : ℕ) (bins : List ℕ) (gd : Bool) (hnc : nc ≠ 0) :
    (extract_solution res (some Am) (some bv) nc bins gd).active_set =
      some (np_where ((residual Am res.xVals bv).map
        (fun r => decide (r ^ 2 < tol_active)))) ∧
    (extract_solution res (some Am) (some bv) nc bins gd).sol = res.xVals ∧
    (extract_solution res (some Am) (some bv) nc bins gd).dual =
      (if gd = true ∧ bins = [] then some res.pi else none) := by
  simp [extract_solution, hnc]

/-- C1: for a solved constrained problem, the active set is exactly the set of
constraint indices `i` at which the squared residual `(A·sol − b)[i]²` is
strictly below `10⁻¹²`, `sol` being the returned primal vector. -/
theorem c1_active_set_exact (oracle : BuiltModel → GurobiResult)
    (Q : Option Mat) (c : Option Vec) (Am : Mat) (bv : Vec)
    (eqs bins : Option (List ℕ)) (verbose gd : Bool) (inv : Bool)
    (out : SolverOutput)
    (hrun : solve_miqp_run oracle Q c (some Am) (some bv) eqs bins verbose gd
      = some (inv, some out))
    (hcon : bv.length ≠ 0) :
    ∃ act, out.active_set = some act ∧
      ∀ i, i ∈ act ↔
        ∃ r, (residual Am out.sol bv)[i]? = some r ∧ r ^ 2 < tol_active := by
  obtain ⟨nv, hdims⟩ := dims_of_A_some Q c Am bv
  rw [miqp_run_eq oracle Q c (some Am) (some bv) eqs bins verbose gd nv
    bv.length hdims (by simp)] at hrun
  split at hrun
  · simp at hrun
  · simp only [Option.some_inj, Prod.mk.injEq] at hrun
    obtain ⟨-, hout⟩ := hrun
    subst hout
    obtain ⟨hact, hsol, -⟩ :=
      extract_constrained (oracle (build_model Q c (some Am) (some bv)
        (eqs.getD []) (bins.getD []) nv bv.length)) Am bv bv.length
        (bins.getD []) gd hcon
    refine ⟨_, hact, fun i => ?_⟩
    rw [hsol]
    exact (mem_np_where _ _ i).trans (by simp)

/-- C1 witness: a one-constraint problem whose solver output has residual
zero at the single constraint, which is therefore reported active. -/
theorem c1_active_set_exact_witness :
    ∃ act, (⟨5, [0], some [0], some [0], some [1]⟩ :
        SolverOutput).active_set = some act ∧
      ∀ i, i ∈ act ↔
        ∃ r, (residual [[1]] (⟨5, [0], some [0], some [0], some [1]⟩ :
          SolverOutput).sol [0])[i]? = some r ∧ r ^ 2 < tol_active :=
  c1_active_set_exact (fun _ => ⟨2, 5, [0], [0], [1]⟩) none (some [1])
    [[1]] [0] none none false true true
    ⟨5, [0], some [0], some [0], some [1]⟩ (by with_unfolding_all rfl)
    (by decide)

/-- C4: for a returned record of a constrained problem, the dual field is
populated exactly when `get_duals` holds and the effective binary-index list
is empty. -/
theorem c4_dual_gating (oracle : BuiltModel → GurobiResult) (Q : Option Mat)
    (c : Option Vec) (Am : Mat) (bv : Vec) (eqs bins : Option (List ℕ))
    (verbose gd : Bool) (inv : Bool) (out : SolverOutput)
    (hrun : solve_miqp_run oracle Q c (some Am) (some bv) eqs bins verbose gd
      = some (inv, some out))
    (hcon : bv.length ≠ 0) :
    out.dual.isSome = true ↔ (gd = true ∧ bins.getD [] = []) := by
  obtain ⟨nv, hdims⟩ := dims_of_A_some Q c Am bv
  rw [miqp_run_eq oracle Q c (some Am) (some bv) eqs bins verbose gd nv
    bv.length hdims (by simp)] at hrun
  split at hrun
  · simp at hrun
  · simp only [Option.some_inj, Prod.mk.injEq] at hrun
    obtain ⟨-, hout⟩ := hrun
    subst hout
    obtain ⟨-, -, hdual⟩ :=
      extract_constrained (oracle (build_model Q c (some Am) (some bv)
        (eqs.getD []) (bins.getD []) nv bv.length)) Am bv bv.length
        (bins.getD []) gd hcon
    rw [hdual]
    by_cases h : gd = true ∧ bins.getD [] = [] <;> simp [h]

/-- C4 witness: with `get_duals` true and no binary variables the returned
dual is present. -/
theorem c4_dual_gating_witness :
    (⟨5, [0], some [0], some [0], some [1]⟩ :
        SolverOutput).dual.isSome = true ↔
      (true = true ∧ (none : Option (List ℕ)).getD [] = []) :=
  c4_dual_gating (fun _ => ⟨2, 5, [0], [0], [1]⟩) none (some [1]) [[1]] [0]
    none none false true true ⟨5, [0], some [0], some [0], some [1]⟩
    (by with_unfolding_all rfl) (by decide)

/-- C6: for a solved problem with zero constraints the returned record has
`slack`, `active_set` and `dual` absent while `obj` and `sol` carry the
solver-reported objective and primal vector. -/
theorem c6_unconstrained_fields (oracle : BuiltModel → GurobiResult)
    (Q : Option Mat) (c : Option Vec) (A : Option Mat) (b : Option Vec)
    (eqs bins : Option (List ℕ)) (verbose gd : Bool) (inv : Bool)
    (out : SolverOutput) (nv : ℕ)
    (hdims : get_program_parameters Q c A b = some (nv, 0))
    (hrun : solve_miqp_run oracle Q c A b eqs bins verbose gd =
      some (inv, some out)) :
    out = { obj := (oracle (build_model Q c A b (eqs.getD []) (bins.getD [])
                      nv 0)).objVal,
            sol := (oracle (build_model Q c A b (eqs.getD []) (bins.getD [])
                      nv 0)).xVals,
            slack := none, active_set := none, dual := none } := by
  by_cases hwf : A = none ∧ Q = none
  · obtain ⟨hA, hQ⟩ := hwf
    subst hA; subst hQ
    cases c <;> simp [solve_miqp_run, get_program_parameters] at hrun
  · rw [miqp_run_eq oracle Q c A b eqs bins verbose gd nv 0 hdims hwf] at hrun
    split at hrun
    · simp at hrun
    · simp only [Option.some_inj, Prod.mk.injEq] at hrun
      obtain ⟨-, hout⟩ := hrun
      subst hout
      simp [extract_solution]

/-- C6 witness: an unconstrained quadratic problem; the record carries the
oracle objective and primal values and no constraint fields. -/
theorem c6_unconstrained_fields_witness :
    (⟨7, [1, 2], none, none, none⟩ : SolverOutput) =
      { obj := ((fun _ => (⟨2, 7, [1, 2], [], []⟩ : GurobiResult))
                  (build_model (some [[1, 0], [0, 1]]) none none none [] []
                    2 0)).objVal,
        sol := ((fun _ => (⟨2, 7, [1, 2], [], []⟩ : GurobiResult))
                  (build_model (some [[1, 0], [0, 1]]) none none none [] []
                    2 0)).xVals,
        slack := none, active_set := none, dual := none } :=
  c6_unconstrained_fields (fun _ => ⟨2, 7, [1, 2], [], []⟩)
    (some [[1, 0], [0, 1]]) none none none none none false true true
    ⟨7, [1, 2], none, none, none⟩ 2 rfl rfl

/-- C7: an invocation that reaches the external solver returns an absent
result exactly when the status is neither `OPTIMAL` nor `SUBOPTIMAL`, and on
`OPTIMAL` or `SUBOPTIMAL` it returns the record built by the solution
extractor. -/
theorem c7_status_gate (oracle : BuiltModel → GurobiResult) (Q : Option Mat)
    (c : Option Vec) (A : Option Mat) (b : Option Vec)
    (eqs bins : Option (List ℕ)) (verbose gd : Bool) (nv nc : ℕ)
    (res : GurobiResult)
    (hdims : get_program_parameters Q c A b = some (nv, nc))
    (hwf : ¬(A = none ∧ Q = none))
    (hres : res = oracle (build_model Q c A b (eqs.getD []) (bins.getD [])
      nv nc)) :
    ∃ result, solve_miqp_run oracle Q c A b eqs bins verbose gd =
        some (true, result) ∧
      (result = none ↔
        ¬(res.status = GRB.OPTIMAL ∨ res.status = GRB.SUBOPTIMAL)) ∧
      (res.status = GRB.OPTIMAL ∨ res.status = GRB.SUBOPTIMAL →
        result = some (extract_solution res A b nc (bins.getD []) gd)) := by
  rw [miqp_run_eq oracle Q c A b eqs bins verbose gd nv nc hdims hwf, ← hres]
  by_cases hst : res.status = GRB.OPTIMAL ∨ res.status = GRB.SUBOPTIMAL
  · have hcond : ¬(res.status ≠ GRB.OPTIMAL ∧ res.status ≠ GRB.SUBOPTIMAL) :=
      by tauto
    rw [if_neg hcond]
    exact ⟨some _, rfl, by simp [hst], fun _ => rfl⟩
  · have hcond : res.status ≠ GRB.OPTIMAL ∧ res.status ≠ GRB.SUBOPTIMAL := by
      tauto
    rw [if_pos hcond]
    exact ⟨none, rfl, by simp [hst], fun h => absurd h hst⟩

/-- C7 witness: a constrained linear problem with an `OPTIMAL` oracle status
yields the extracted record. -/
theorem c7_status_gate_witness :
    ∃ result, solve_miqp_run (fun _ => ⟨2, 3, [1], [0], [5]⟩) none none
        (some [[1]]) (some [2]) none none false true = some (true, result) ∧
      (result = none ↔
        ¬((⟨2, 3, [1], [0], [5]⟩ : GurobiResult).status = GRB.OPTIMAL ∨
          (⟨2, 3, [1], [0], [5]⟩ : GurobiResult).status = GRB.SUBOPTIMAL)) ∧
      ((⟨2, 3, [1], [0], [5]⟩ : GurobiResult).status = GRB.OPTIMAL ∨
          (⟨2, 3, [1], [0], [5]⟩ : GurobiResult).status = GRB.SUBOPTIMAL →
        result = some (extract_solution (⟨2, 3, [1], [0], [5]⟩ : GurobiResult)
          (some [[1]]) (some [2]) 1 [] true)) :=
  c7_status_gate (fun _ => ⟨2, 3, [1], [0], [5]⟩) none none (some [[1]])
    (some [2]) none none false true 1 1 ⟨2, 3, [1], [0], [5]⟩ rfl (by simp)
    rfl

/-- C3: when both `Q` and `A` are absent, `solve_miqp` returns `None`
immediately (first component `false`: `optimize` was never invoked), whatever
the external solver oracle would do. -/
theorem c3_illposed_short_circuit (oracle : BuiltModel → GurobiResult)
    (c : Option Vec) (b : Option Vec) (eqs bins : Option (List ℕ))
    (verbose gd : Bool) :
    solve_miqp_run oracle none c none b eqs bins verbose gd =
      some (false, none) := by
  cases c <;> rfl

/-- C9: `solve_qp` returns exactly what `solve_miqp` returns on the same
input with an empty binary-index set. -/
theorem c9_qp_is_miqp (oracle : BuiltModel → GurobiResult) (Q : Option Mat)
    (c : Option Vec) (A : Option Mat) (b : Option Vec)
    (eqs : Option (List ℕ)) (verbose gd : Bool) :
    solve_qp_run oracle Q c A b eqs verbose gd =
      solve_miqp_run oracle Q c A b eqs (some []) verbose gd := rfl

/-- C10: `solve_milp` with the binary-index set absent, or present but empty,
returns exactly what `solve_lp` returns on the same input. -/
theorem c10_milp_empty_is_lp (oracle : BuiltModel → GurobiResult)
    (c : Option Vec) (A : Option Mat) (b : Option Vec)
    (eqs : Option (List ℕ)) (verbose gd : Bool) :
    solve_milp_run oracle c A b eqs none verbose gd =
      solve_lp_run oracle c A b eqs verbose gd ∧
    solve_milp_run oracle c A b eqs (some []) verbose gd =
      solve_lp_run oracle c A b eqs verbose gd := by
  constructor <;> (cases A <;> cases b <;> rfl)

/-- C5: `solve_lp` and `solve_milp` return `None` without invoking the
formulator when `A` or `b` is absent or of size zero; when the precondition
holds they delegate to `solve_miqp` with `Q` absent (`solve_lp` with no
binary variables, `solve_milp` passing `bin_vars` through). -/
theorem c5_lp_milp_precondition (oracle : BuiltModel → GurobiResult)
    (c : Option Vec) (A : Option Mat) (b : Option Vec)
    (eqs bins : Option (List ℕ)) (verbose gd : Bool) :
    ((A = none ∨ b = none ∨ Mat.size (A.getD []) = 0 ∨
        (b.getD []).length = 0) →
      solve_lp_run oracle c A b eqs verbose gd = some (false, none) ∧
      solve_milp_run oracle c A b eqs bins verbose gd = some (false, none)) ∧
    (∀ Am bv, A = some Am → b = some bv → Mat.size Am ≠ 0 →
      bv.length ≠ 0 →
      solve_lp_run oracle c A b eqs verbose gd =
        (solve_miqp_run oracle none c A b eqs none verbose gd).map
          (fun r => (true, r.2)) ∧
      solve_milp_run oracle c A b eqs bins verbose gd =
        (solve_miqp_run oracle none c A b eqs bins verbose gd).map
          (fun r => (true, r.2))) := by
  constructor
  · intro h
    cases A with
    | none => exact ⟨rfl, rfl⟩
    | some Am =>
      cases b with
      | none => exact ⟨rfl, rfl⟩
      | some bv =>
        have hsz : Mat.size Am = 0 ∨ bv.length = 0 := by
          rcases h with h | h | h | h
          · exact absurd h (by simp)
          · exact absurd h (by simp)
          · exact Or.inl h
          · exact Or.inr h
        constructor
        · simp only [solve_lp_run]
          rw [if_pos hsz]
        · simp only [solve_milp_run]
          rw [if_pos hsz]
  · intro Am bv hA hb hsa hsb
    subst hA
    subst hb
    have hcond : ¬(Mat.size Am = 0 ∨ bv.length = 0) := by tauto
    constructor
    · simp only [solve_lp_run]
      rw [if_neg hcond]
    · simp only [solve_milp_run]
      rw [if_neg hcond]

/-- C5 witness: with `A` absent both entry points return `None` without
delegating; with a nonempty `A` and `b` both delegate to `solve_miqp`. -/
theorem c5_lp_milp_precondition_witness :
    (solve_lp_run (fun _ => ⟨2, 0, [0], [0], [0]⟩) (some [1]) none
        (some [0]) none false true = some (false, none) ∧
      solve_milp_run (fun _ => ⟨2, 0, [0], [0], [0]⟩) (some [1]) none
        (some [0]) none (some [0]) false true = some (false, none)) ∧
    (solve_lp_run (fun _ => ⟨2, 0, [0], [0], [0]⟩) (some [1]) (some [[1]])
        (some [0]) none false true =
      (solve_miqp_run (fun _ => ⟨2, 0, [0], [0], [0]⟩) none (some [1])
        (some [[1]]) (some [0]) none none false true).map
          (fun r => (true, r.2)) ∧
      solve_milp_run (fun _ => ⟨2, 0, [0], [0], [0]⟩) (some [1])
        (some [[1]]) (some [0]) none (some [0]) false true =
      (solve_miqp_run (fun _ => ⟨2, 0, [0], [0], [0]⟩) none (some [1])
        (some [[1]]) (some [0]) none (some [0]) false true).map
          (fun r => (true, r.2))) :=
  ⟨(c5_lp_milp_precondition (fun _ => ⟨2, 0, [0], [0], [0]⟩) (some [1]) none
      (some [0]) none (some [0]) false true).1 (Or.inl rfl),
    (c5_lp_milp_precondition (fun _ => ⟨2, 0, [0], [0], [0]⟩) (some [1])
      (some [[1]]) (some [0]) none (some [0]) false true).2 [[1]] [0] rfl
      rfl (by decide) (by decide)⟩

/-- C8 counterexample: the equality test of two Solution Records is not total.
Comparing a record of an unconstrained solve (optional fields absent) with
itself raises a `TypeError` inside `numpy.allclose` (modelled `none`) instead
of returning a truth value, so the comparison is not well-defined (in
particular not reflexive) on such records. -/
theorem c8_eq_not_total :
    SolverOutput.eq ⟨0, [0], none, none, none⟩ ⟨0, [0], none, none, none⟩ =
      none := rfl

/-- C8 (amended): the equality test is approximate but partial.  Whenever the
four `numpy.allclose` comparisons on `slack`, `active_set`, `dual` and `sol`
are all defined, two records compare equal exactly when all four hold and the
squared difference of the `obj` values is below `10⁻¹⁰`; but when `slack` is
absent in either record the comparison raises instead of returning a value. -/
theorem c8_eq_approx_gated (s o : SolverOutput) :
    (∀ b1 b2 b3 b4 : Bool,
      optAllclose s.slack o.slack = some b1 →
      optAllcloseNat s.active_set o.active_set = some b2 →
      optAllclose s.dual o.dual = some b3 →
      allcloseL s.sol o.sol = some b4 →
      SolverOutput.eq s o =
        some (b1 && b2 && b3 && b4 &&
          decide ((s.obj - o.obj) ^ 2 < tol_obj))) ∧
    ((s.slack = none ∨ o.slack = none) → SolverOutput.eq s o = none) := by
  constructor
  · intro b1 b2 b3 b4 h1 h2 h3 h4
    unfold SolverOutput.eq
    rw [h1, h2, h3, h4]
    cases b1 <;> cases b2 <;> cases b3 <;> cases b4 <;> simp [pyAnd]
  · intro h
    rcases h with h | h
    · simp [SolverOutput.eq, optAllclose, pyAnd, h]
    · cases hs : s.slack <;> simp [SolverOutput.eq, optAllclose, pyAnd, h, hs]

/-- C8 witness: two fully-populated identical records compare equal, and a
record with absent optional fields makes the comparison raise. -/
theorem c8_eq_approx_gated_witness :
    SolverOutput.eq ⟨0, [0], some [1], some [0], some [2]⟩
        ⟨0, [0], some [1], some [0], some [2]⟩ = some true ∧
      SolverOutput.eq ⟨1, [1], none, none, none⟩ ⟨1, [1], none, none, none⟩ =
        none :=
  ⟨by
    with_unfolding_all
      (exact (c8_eq_approx_gated ⟨0, [0], some [1], some [0], some [2]⟩
        ⟨0, [0], some [1], some [0], some [2]⟩).1 true true true true rfl rfl
        rfl rfl),
    (c8_eq_approx_gated ⟨1, [1], none, none, none⟩
      ⟨1, [1], none, none, none⟩).2 (Or.inl rfl)⟩

end SimpleGurobi
